import Mathlib

/-
Verification of the MyOS kernel sources against their specification.

Each section shallowly embeds one subsystem of the C++ sources:

  * `MemMgr`   — src/memorymanagement.cpp   (MemoryManager::malloc / free)
  * `IPv4`     — src/net/ipv4.cpp           (InternetProtocolProvider::Send / Checksum)
  * `GDT`      — src/gdt.cpp                (SegmentDescriptor constructor)
  * `Interrupts` — src/hardwarecommunication/interrupts.cpp (InterruptManager)
  * `Syscalls` — src/syscalls.cpp           (SyscallHandler)
  * `UDP`      — src/net/udp.cpp            (UserDatagramProtocolProvider::Disconnect)
  * `TCP`      — src/net/tcp.cpp            (TransmissionControlProtocolProvider)

Machine integers are modelled as `Nat` with explicit `% 2^w` where the C++
arithmetic can overflow.  Pointer-linked structures are modelled as lists;
the doubly-linked heap chunk chain is modelled as a list zipper so that the
`prev`/`next` pointer accesses of the C++ code become structural accesses.
-/

namespace MyOS

namespace MemMgr

/-- Model of one `MemoryChunk` header of src/memorymanagement.cpp: the
`allocated` flag and the `size` field.  The `prev`/`next` pointers are
represented by the position of the chunk in a list (see `chunkAddr` for the
address map implied by invariant (i), chunks tile the region). -/
structure MemoryChunk where
  allocated : Bool
  size : Nat
deriving Repr, DecidableEq

/-- sizeof(MemoryChunk) on the i386 target: `next` (4) + `prev` (4) +
`allocated` (1 byte, padded to 4 by the alignment of `size_t`) + `size` (4). -/
def sizeofMemoryChunk : Nat := 16

/-- The scan loop of `MemoryManager::malloc`:
`for(chunk = first; chunk != 0 && result == 0; chunk = chunk->next)
   if(chunk->size > size && !chunk->allocated) result = chunk;`
returning the position of the chunk the loop settles on, if any. -/
def mallocScan : List MemoryChunk → Nat → Option Nat
  | [], _ => none
  | c :: rest, n =>
    if n < c.size ∧ c.allocated = false then some 0
    else (mallocScan rest n).map (· + 1)

/-- Address of the header of chunk `i` in a heap whose chunks tile the
region starting at `start`: each chunk occupies its header followed by
`size` payload bytes (invariant (i) of the spec's data model). -/
def chunkAddr (start : Nat) (l : List MemoryChunk) (i : Nat) : Nat :=
  start + (((l.take i).map (fun c => sizeofMemoryChunk + c.size)).sum)

/-- `MemoryManager::malloc`.  Returns the C++ function's return value
(`none` models the null pointer `0`) together with the new chunk list.
The split branch `result->size >= size + sizeof(MemoryChunk) + 1` carves the
chunk into an allocated block of exactly `n` bytes followed by a free chunk
holding the remainder, threaded into the list. -/
def malloc (start : Nat) (l : List MemoryChunk) (n : Nat) : Option Nat × List MemoryChunk :=
  match mallocScan l n with
  | none => (none, l)
  | some i =>
    let c := l.getD i ⟨false, 0⟩
    let l' :=
      if n + sizeofMemoryChunk + 1 ≤ c.size then
        l.take i ++ ⟨true, n⟩ :: ⟨false, c.size - n - sizeofMemoryChunk⟩ :: l.drop (i + 1)
      else
        l.set i ⟨true, c.size⟩
    (some (chunkAddr start l i + sizeofMemoryChunk), l')

/-- A chunk that `MemoryManager::malloc(n)`'s scan accepts: free, with
size strictly greater than `n`. -/
def isFit (n : Nat) (c : MemoryChunk) : Prop :=
  c.allocated = false ∧ n < c.size

instance (n : Nat) (c : MemoryChunk) : Decidable (isFit n c) := by
  unfold isFit; infer_instance

theorem mallocScan_eq_none (l : List MemoryChunk) (n : Nat)
    (h : ∀ c ∈ l, c.allocated = false → c.size ≤ n) :
    mallocScan l n = none := by
  induction l with
  | nil => rfl
  | cons c rest ih =>
    have hc : ¬ (n < c.size ∧ c.allocated = false) := by
      rintro ⟨h1, h2⟩
      exact absurd (h c (List.mem_cons_self c rest) h2) (Nat.not_le.mpr h1)
    simp only [mallocScan, if_neg hc]
    rw [ih (fun c hc => h c (List.mem_cons_of_mem _ hc))]
    rfl

theorem mallocScan_first (l : List MemoryChunk) (n : Nat) (i : Nat)
    (hi : i < l.length)
    (hfit : isFit n (l.get ⟨i, hi⟩))
    (hmin : ∀ j (hj : j < l.length), j < i → ¬ isFit n (l.get ⟨j, hj⟩)) :
    mallocScan l n = some i := by
  induction l generalizing i with
  | nil => exact absurd hi (Nat.not_lt_zero i)
  | cons c rest ih =>
    cases i with
    | zero =>
      have : n < c.size ∧ c.allocated = false := ⟨hfit.2, hfit.1⟩
      simp only [mallocScan, if_pos this]
    | succ i' =>
      have hc : ¬ (n < c.size ∧ c.allocated = false) := by
        rintro ⟨h1, h2⟩
        exact hmin 0 (Nat.succ_pos _) (Nat.succ_pos _) ⟨h2, h1⟩
      simp only [mallocScan, if_neg hc]
      have hi' : i' < rest.length := Nat.lt_of_succ_lt_succ hi
      rw [ih i' hi' hfit (fun j hj hji =>
        hmin (j + 1) (Nat.succ_lt_succ hj) (Nat.succ_lt_succ hji))]
      rfl

/-- Claim C3: `MemoryManager::malloc(n)` returns the address immediately
after the header of the first chunk in list order that is free and has size
strictly greater than `n`, splitting that chunk in place (allocated block of
size exactly `n`, free remainder threaded into the list) exactly when its
size is at least `n + sizeof(MemoryChunk) + 1`; and when every free chunk has
size at most `n` (in particular a sole free chunk of size exactly `n`),
it returns the null sentinel and leaves the heap unchanged. -/
theorem malloc_firstFit_spec (start n : Nat) (l : List MemoryChunk) :
    ((∀ c ∈ l, c.allocated = false → c.size ≤ n) → malloc start l n = (none, l))
    ∧ (∀ i (hi : i < l.length), isFit n (l.get ⟨i, hi⟩) →
        (∀ j (hj : j < l.length), j < i → ¬ isFit n (l.get ⟨j, hj⟩)) →
        malloc start l n =
          (some (chunkAddr start l i + sizeofMemoryChunk),
            if n + sizeofMemoryChunk + 1 ≤ (l.get ⟨i, hi⟩).size then
              l.take i ++ ⟨true, n⟩ ::
                ⟨false, (l.get ⟨i, hi⟩).size - n - sizeofMemoryChunk⟩ :: l.drop (i + 1)
            else
              l.set i ⟨true, (l.get ⟨i, hi⟩).size⟩)) := by
  constructor
  · intro h
    unfold malloc
    rw [mallocScan_eq_none l n h]
  · intro i hi hfit hmin
    unfold malloc
    rw [mallocScan_first l n i hi hfit hmin]
    have hgetD : l.getD i ⟨false, 0⟩ = l.get ⟨i, hi⟩ := by
      rw [List.getD_eq_getElem l _ hi, List.get_eq_getElem]
    simp only [hgetD]

/-- Witness for `malloc_firstFit_spec`: `malloc 20` on the heap
`[alloc 10, free 100]` splits the free chunk (37 ≤ 100) and hands out the
address after its header; `malloc 100` on the same heap, whose sole free
chunk has exactly 100 bytes, fails and leaves the heap unchanged. -/
theorem malloc_firstFit_spec_witness :
    (malloc 0 [⟨true, 10⟩, ⟨false, 100⟩] 20
        = (some 42, [⟨true, 10⟩, ⟨true, 20⟩, ⟨false, 64⟩]))
    ∧ (malloc 0 [⟨true, 10⟩, ⟨false, 100⟩] 100 = (none, [⟨true, 10⟩, ⟨false, 100⟩])) := by
  constructor
  · have h := (malloc_firstFit_spec 0 20 [⟨true, 10⟩, ⟨false, 100⟩]).2
      1 (by decide) (by decide) (by decide)
    rw [h]; decide
  · have h := (malloc_firstFit_spec 0 100 [⟨true, 10⟩, ⟨false, 100⟩]).1 (by decide)
    rw [h]

/-- Second half of `MemoryManager::free`: merge the (possibly already
prev-merged) chunk with its successor when that successor is free:
`if(chunk->next != 0 && !chunk->next->allocated) { chunk->size += chunk->next->size + sizeof(MemoryChunk); chunk->next = chunk->next->next; ... }`.
`before` is the reversed list of chunks in front of `c`; the result is the
whole chunk list in address order. -/
def freeMergeNext (before : List MemoryChunk) (c : MemoryChunk)
    (after : List MemoryChunk) : List MemoryChunk :=
  match after with
  | [] => before.reverse ++ [c]
  | nx :: rest =>
    if nx.allocated = false then
      before.reverse ++ ⟨c.allocated, c.size + nx.size + sizeofMemoryChunk⟩ :: rest
    else
      before.reverse ++ c :: nx :: rest

/-- `MemoryManager::free(ptr)` on the chunk `c`: clear the allocated flag,
merge with the previous chunk when that one is free
(`chunk->prev->size += chunk->size + sizeof(MemoryChunk)`, unlink `c`),
then merge with the next chunk when that one is free.  The chunk chain is
given as a zipper: `before` holds the chunks in front of `c` in reverse
order (so `before.head?` is `c`'s `prev`), `after` the chunks behind it. -/
def freeChunk (before : List MemoryChunk) (c : MemoryChunk)
    (after : List MemoryChunk) : List MemoryChunk :=
  match before with
  | [] => freeMergeNext [] ⟨false, c.size⟩ after
  | p :: ps =>
    if p.allocated = false then
      freeMergeNext ps ⟨false, p.size + c.size + sizeofMemoryChunk⟩ after
    else
      freeMergeNext (p :: ps) ⟨false, c.size⟩ after

/-- The coalescing invariant (spec invariant (iii)): no two chunks adjacent
in the list are both unallocated. -/
def NoAdjacentFree (l : List MemoryChunk) : Prop :=
  List.Chain' (fun a b => a.allocated = true ∨ b.allocated = true) l

theorem noAdjacentFree_iff_append (l₁ l₂ : List MemoryChunk) :
    NoAdjacentFree (l₁ ++ l₂) ↔
      NoAdjacentFree l₁ ∧ NoAdjacentFree l₂ ∧
        ∀ x ∈ l₁.getLast?, ∀ y ∈ l₂.head?,
          x.allocated = true ∨ y.allocated = true := by
  exact List.chain'_append

theorem noAdjacentFree_reverse (l : List MemoryChunk) :
    NoAdjacentFree l.reverse ↔ NoAdjacentFree l := by
  unfold NoAdjacentFree
  rw [List.chain'_reverse]
  constructor
  · intro h
    exact h.imp (fun a b hab => hab.symm)
  · intro h
    exact h.imp (fun a b hab => hab.symm)

theorem freeMergeNext_noAdjacentFree (before : List MemoryChunk)
    (c : MemoryChunk) (after : List MemoryChunk)
    (hb : NoAdjacentFree before.reverse)
    (ha : NoAdjacentFree after)
    (hbc : ∀ p ∈ before.head?, p.allocated = true) :
    NoAdjacentFree (freeMergeNext before c after) := by
  have hlast : ∀ x ∈ before.reverse.getLast?, ∀ y : MemoryChunk,
      x.allocated = true ∨ y.allocated = true := by
    intro x hx y
    left
    apply hbc
    rwa [List.getLast?_reverse] at hx
  cases after with
  | nil =>
    show NoAdjacentFree (before.reverse ++ [c])
    rw [noAdjacentFree_iff_append]
    exact ⟨hb, List.chain'_singleton c, fun x hx y _ => hlast x hx y⟩
  | cons nx rest =>
    by_cases hnx : nx.allocated = false
    · show NoAdjacentFree (if nx.allocated = false then _ else _)
      rw [if_pos hnx, noAdjacentFree_iff_append]
      refine ⟨hb, ?_, fun x hx y _ => hlast x hx y⟩
      rw [NoAdjacentFree, List.chain'_cons']
      constructor
      · intro y hy
        right
        rcases (List.chain'_cons'.mp ha).1 y hy with h | h
        · exact absurd h (by simp [hnx])
        · exact h
      · exact (List.chain'_cons'.mp ha).2
    · show NoAdjacentFree (if nx.allocated = false then _ else _)
      rw [if_neg hnx, noAdjacentFree_iff_append]
      refine ⟨hb, ?_, fun x hx y _ => hlast x hx y⟩
      rw [NoAdjacentFree, List.chain'_cons']
      refine ⟨fun y hy => ?_, ha⟩
      simp only [List.head?_cons, Option.mem_def, Option.some.injEq] at hy
      subst hy
      right
      revert hnx; cases nx.allocated <;> simp

/-- Claim C5: for a heap satisfying the chunk-list invariants (the zipper
`before.reverse ++ c :: after` is the chunk chain in address order, which
encodes the consistent `prev`/`next` links) with no two adjacent free
chunks, freeing the allocated chunk `c` leaves a chunk list in which no two
adjacent chunks are both unallocated. -/
theorem freeChunk_noAdjacentFree (before : List MemoryChunk) (c : MemoryChunk)
    (after : List MemoryChunk)
    (halloc : c.allocated = true)
    (hinv : NoAdjacentFree (before.reverse ++ c :: after)) :
    NoAdjacentFree (freeChunk before c after) := by
  rw [noAdjacentFree_iff_append] at hinv
  obtain ⟨hb, hca, _⟩ := hinv
  have hafter : NoAdjacentFree after := (List.chain'_cons'.mp hca).2
  cases before with
  | nil =>
    show NoAdjacentFree (freeMergeNext [] ⟨false, c.size⟩ after)
    apply freeMergeNext_noAdjacentFree
    · exact List.chain'_nil
    · exact hafter
    · intro p hp
      simp at hp
  | cons p ps =>
    by_cases hp : p.allocated = false
    · show NoAdjacentFree (if p.allocated = false then _ else _)
      rw [if_pos hp]
      apply freeMergeNext_noAdjacentFree
      · -- `ps.reverse` inherits the invariant from `(p :: ps).reverse`
        have h := hb
        rw [List.reverse_cons, noAdjacentFree_iff_append] at h
        exact h.1
      · exact hafter
      · -- the merged chunk's new prev is `ps.head?`; it must be allocated
        -- because `p` is free and the old list had no two adjacent free chunks
        intro q hq
        have h := hb
        rw [List.reverse_cons, noAdjacentFree_iff_append] at h
        have hq' : q ∈ ps.reverse.getLast? := by
          rwa [List.getLast?_reverse]
        rcases h.2.2 q hq' p (by simp) with hh | hh
        · exact hh
        · exact absurd hh (by simp [hp])
    · show NoAdjacentFree (if p.allocated = false then _ else _)
      rw [if_neg hp]
      apply freeMergeNext_noAdjacentFree
      · exact hb
      · exact hafter
      · intro q hq
        simp only [List.head?_cons, Option.mem_def, Option.some.injEq] at hq
        subst hq
        revert hp; cases p.allocated <;> simp

/-- Witness for `freeChunk_noAdjacentFree`: freeing the middle allocated
chunk of `[free 10, alloc 20, free 30]` (both neighbours free) coalesces all
three into one chunk and preserves the invariant. -/
theorem freeChunk_noAdjacentFree_witness :
    (⟨true, 20⟩ : MemoryChunk).allocated = true
    ∧ NoAdjacentFree ([⟨false, 10⟩].reverse ++ ⟨true, 20⟩ :: [⟨false, 30⟩])
    ∧ NoAdjacentFree (freeChunk [⟨false, 10⟩] ⟨true, 20⟩ [⟨false, 30⟩]) := by
  have hinv : NoAdjacentFree
      (([⟨false, 10⟩] : List MemoryChunk).reverse ++ ⟨true, 20⟩ :: [⟨false, 30⟩]) := by
    simp [NoAdjacentFree, List.chain'_cons]
  exact ⟨rfl, hinv,
    freeChunk_noAdjacentFree [⟨false, 10⟩] ⟨true, 20⟩ [⟨false, 30⟩] rfl hinv⟩

end MemMgr

namespace IPv4

/-- The byte swap applied to every 16-bit word inside
`InternetProtocolProvider::Checksum`:
`((data[i] & 0xFF00) >> 8) | ((data[i] & 0x00FF) << 8)`. -/
def swap16 (w : Nat) : Nat :=
  ((w &&& 0xFF00) >>> 8) ||| ((w &&& 0x00FF) <<< 8)

theorem and_shiftRight_distrib (a b : Nat) :
    ∀ n, (a &&& b) >>> n = (a >>> n) &&& (b >>> n)
  | 0 => rfl
  | n + 1 => by
    rw [Nat.shiftRight_succ, Nat.shiftRight_succ, Nat.shiftRight_succ,
      and_shiftRight_distrib a b n, Nat.and_div_two]

theorem swap16_eq (w : Nat) : swap16 w = (w % 256) * 256 + (w / 256) % 256 := by
  unfold swap16
  have h1 : w &&& 0x00FF = w % 256 := by
    have h := Nat.and_pow_two_sub_one_eq_mod w 8
    norm_num at h
    exact h
  have h2 : (w &&& 0xFF00) >>> 8 = (w / 256) % 256 := by
    rw [and_shiftRight_distrib]
    have he : (0xFF00 : Nat) >>> 8 = 0xFF := by decide
    rw [he]
    have h := Nat.and_pow_two_sub_one_eq_mod (w >>> 8) 8
    norm_num at h
    rw [h, Nat.shiftRight_eq_div_pow]
  rw [h1, h2, Nat.shiftLeft_eq]
  have h3 : (2 : Nat) ^ 8 * (w % 256) + (w / 256) % 256
      = 2 ^ 8 * (w % 256) ||| (w / 256) % 256 :=
    Nat.mul_add_lt_is_or (Nat.mod_lt _ (by norm_num)) _
  rw [Nat.lor_comm]
  have h4 : w % 256 * 2 ^ 8 = 2 ^ 8 * (w % 256) := by ring
  rw [h4, ← h3]
  ring

theorem swap16_lt (w : Nat) : swap16 w < 65536 := by
  rw [swap16_eq]
  have h1 : w % 256 < 256 := Nat.mod_lt _ (by norm_num)
  have h2 : w / 256 % 256 < 256 := Nat.mod_lt _ (by norm_num)
  omega

theorem swap16_mod (w : Nat) : swap16 (w % 65536) = swap16 w := by
  rw [swap16_eq, swap16_eq]
  have h1 : w % 65536 % 256 = w % 256 := Nat.mod_mod_of_dvd w (by norm_num)
  have h2 : w % 65536 / 256 = w / 256 % 256 := by
    have h := Nat.mod_mul_right_div_self w 256 256
    norm_num at h
    exact h
  rw [h1, h2]
  omega

theorem swap16_swap16 (w : Nat) (h : w < 65536) : swap16 (swap16 w) = w := by
  rw [swap16_eq, swap16_eq]
  have h1 : w / 256 % 256 = w / 256 := Nat.mod_eq_of_lt (by omega)
  rw [h1]
  have h2 : (w % 256 * 256 + w / 256) % 256 = w / 256 := by omega
  have h3 : (w % 256 * 256 + w / 256) / 256 = w % 256 := by omega
  rw [h2, h3]
  omega

theorem swap16_zero : swap16 0 = 0 := by decide

/-- The accumulation loop of `InternetProtocolProvider::Checksum`:
`for(i = 0; i < lengthInBytes/2; i++) temp += swap(data[i]);` with `temp`
a `uint32_t` (hence the `% 2^32`). -/
def checksumAcc (ws : List Nat) : Nat :=
  ws.foldl (fun temp w => (temp + swap16 w) % 2 ^ 32) 0

/-- The carry-fold loop
`while(temp & 0xFFFF0000) temp = (temp & 0xFFFF) + (temp >> 16);`
(for a `uint32_t` the guard `temp & 0xFFFF0000 != 0` is `65536 ≤ temp`). -/
def foldCarry (x : Nat) : Nat :=
  if x < 65536 then x else foldCarry (x % 65536 + x / 65536)
termination_by x
decreasing_by
  have h := Nat.div_add_mod x 65536
  omega

theorem foldCarry_lt (x : Nat) : foldCarry x < 65536 := by
  induction x using foldCarry.induct with
  | case1 x h => rw [foldCarry, if_pos h]; exact h
  | case2 x h ih => rw [foldCarry, if_neg h]; exact ih

theorem foldCarry_pos (x : Nat) (h : 0 < x) : 0 < foldCarry x := by
  induction x using foldCarry.induct with
  | case1 x hx => rw [foldCarry, if_pos hx]; exact h
  | case2 x hx ih =>
    rw [foldCarry, if_neg hx]
    exact ih (by omega)

theorem foldCarry_mod (x : Nat) : foldCarry x % 65535 = x % 65535 := by
  induction x using foldCarry.induct with
  | case1 x hx => rw [foldCarry, if_pos hx]
  | case2 x hx ih =>
    rw [foldCarry, if_neg hx]
    rw [ih]
    have h := Nat.div_add_mod x 65536
    omega

/-- `InternetProtocolProvider::Checksum(data, lengthInBytes)` over a buffer
of an even number of bytes, given as the list of its 16-bit little-endian
memory words.  `~temp` on a `uint32_t` is `2^32 - 1 - temp`, and the final
masked expression `((~temp & 0xFF00) >> 8) | ((~temp & 0x00FF) << 8)` is
`swap16` applied to it. -/
def Checksum (ws : List Nat) : Nat :=
  swap16 (2 ^ 32 - 1 - foldCarry (checksumAcc ws))

theorem checksumAcc_go (ws : List Nat) :
    ∀ acc, acc + ws.length * 65536 ≤ 2 ^ 32 →
      ws.foldl (fun temp w => (temp + swap16 w) % 2 ^ 32) acc
        = acc + (ws.map swap16).sum := by
  induction ws with
  | nil => intro acc _; simp
  | cons w ws ih =>
    intro acc hacc
    simp only [List.foldl_cons, List.map_cons, List.sum_cons]
    have hsw : swap16 w < 65536 := swap16_lt w
    have hlt : acc + swap16 w < 2 ^ 32 := by
      simp only [List.length_cons] at hacc
      omega
    rw [Nat.mod_eq_of_lt hlt]
    rw [ih (acc + swap16 w) (by simp only [List.length_cons] at hacc; omega)]
    ring

theorem checksumAcc_eq_sum (ws : List Nat) (h : ws.length ≤ 65536) :
    checksumAcc ws = (ws.map swap16).sum := by
  unfold checksumAcc
  rw [checksumAcc_go ws 0 (by omega)]
  omega

/-- Core round-trip property of the RFC 1071 checksum as implemented:
writing `Checksum` of a buffer (whose checksum slot holds 0) into that
slot makes the checksum of the whole buffer zero. -/
theorem checksum_insert_eq_zero (l₁ l₂ : List Nat) (hlen : l₁.length + l₂.length ≤ 65534) :
    Checksum (l₁ ++ Checksum (l₁ ++ 0 :: l₂) :: l₂) = 0 := by
  set A := (l₁.map swap16).sum with hA
  set B := (l₂.map swap16).sum with hB
  have hsum0 : checksumAcc (l₁ ++ 0 :: l₂) = A + B := by
    rw [checksumAcc_eq_sum _ (by simp; omega)]
    simp only [List.map_append, List.map_cons, List.sum_append, List.sum_cons,
      swap16_zero, ← hA, ← hB]
    ring
  set F := foldCarry (A + B) with hF
  have hFlt : F < 65536 := foldCarry_lt _
  have hFmod : F % 65535 = (A + B) % 65535 := foldCarry_mod _
  have hc : Checksum (l₁ ++ 0 :: l₂) = swap16 (65535 - F) := by
    unfold Checksum
    rw [hsum0, ← hF, ← swap16_mod]
    congr 1
    omega
  set c := Checksum (l₁ ++ 0 :: l₂) with hcdef
  have hswc : swap16 c = 65535 - F := by
    rw [hc, swap16_swap16 _ (by omega)]
  have hsum1 : checksumAcc (l₁ ++ c :: l₂) = A + B + (65535 - F) := by
    rw [checksumAcc_eq_sum _ (by simp; omega)]
    simp only [List.map_append, List.map_cons, List.sum_append, List.sum_cons, ← hA, ← hB, hswc]
    ring
  have hABpos : 0 < A + B + (65535 - F) := by
    rcases Nat.eq_zero_or_pos (A + B) with hz | hp
    · have hF0 : F = 0 := by
        rw [hF, hz, foldCarry]
        norm_num
      omega
    · omega
  set G := foldCarry (A + B + (65535 - F)) with hG
  have hGlt : G < 65536 := foldCarry_lt _
  have hGmod : G % 65535 = (A + B + (65535 - F)) % 65535 := foldCarry_mod _
  have hGpos : 0 < G := foldCarry_pos _ hABpos
  have hG65535 : G = 65535 := by
    have h0 : (A + B + (65535 - F)) % 65535 = 0 := by
      omega
    omega
  unfold Checksum
  rw [hsum1, ← hG, hG65535, ← swap16_mod]
  have hm : (2 ^ 32 - 1 - 65535) % 65536 = 0 := by norm_num
  rw [hm]
  exact swap16_zero

/-- The ten 16-bit little-endian memory words of the IPv4 header as filled
by `InternetProtocolProvider::Send` at the point `message->checksum = 0;`:
word `i` is the load of bytes `2i, 2i+1` of the packed
`InternetProtocolV4Message`.  Word 0 is `headerLength | version << 4`
(= 0x45) plus `tos << 8` (= 0), word 1 the byte-swapped `totalLength`
(a `uint16_t`, hence the `% 65536`), word 2 `ident` = 0x0100, word 3
`flagsAndOffset` = 0x0040, word 4 `timeToLive` (0x40) plus `protocol << 8`,
word 5 the zeroed checksum, words 6–9 the little-endian 16-bit halves of
`srcIP` and `dstIP`. -/
def sendHeaderZeroCk (size protocol dstIP srcIP : Nat) : List Nat :=
  [0x45,
   swap16 ((size + 20) % 65536),
   0x0100,
   0x0040,
   0x40 + protocol % 256 * 256,
   0,
   srcIP % 65536, srcIP / 65536 % 65536,
   dstIP % 65536, dstIP / 65536 % 65536]

/-- The header `InternetProtocolProvider::Send` emits: the checksum word
holds `Checksum` of the header with that word zeroed
(`message->checksum = 0; message->checksum = Checksum((uint16_t*)message, sizeof(InternetProtocolV4Message));`). -/
def sendHeader (size protocol dstIP srcIP : Nat) : List Nat :=
  [0x45,
   swap16 ((size + 20) % 65536),
   0x0100,
   0x0040,
   0x40 + protocol % 256 * 256,
   Checksum (sendHeaderZeroCk size protocol dstIP srcIP),
   srcIP % 65536, srcIP / 65536 % 65536,
   dstIP % 65536, dstIP / 65536 % 65536]

/-- Claim C6: for every IPv4 header emitted by
`InternetProtocolProvider::Send` (checksum computed over the 20-byte header
with the checksum field zeroed, then stored into that field), running
`InternetProtocolProvider::Checksum` over the resulting complete header
yields 0. -/
theorem checksum_sendHeader_eq_zero (size protocol dstIP srcIP : Nat) :
    Checksum (sendHeader size protocol dstIP srcIP) = 0 := by
  have h := checksum_insert_eq_zero
    [0x45, swap16 ((size + 20) % 65536), 0x0100, 0x0040, 0x40 + protocol % 256 * 256]
    [srcIP % 65536, srcIP / 65536 % 65536, dstIP % 65536, dstIP / 65536 % 65536]
    (by simp)
  simpa [sendHeader, sendHeaderZeroCk] using h

end IPv4

namespace GDT

/-- The eight bytes `target[0..7]` written by the `SegmentDescriptor`
constructor, as a record (field `bI` is `target[I]`). -/
structure Descriptor where
  b0 : Nat
  b1 : Nat
  b2 : Nat
  b3 : Nat
  b4 : Nat
  b5 : Nat
  b6 : Nat
  b7 : Nat
deriving Repr, DecidableEq

/-- `GlobalDescriptorTable::SegmentDescriptor::SegmentDescriptor(base, limit, type)`
of src/gdt.cpp.  When `limit <= 65536` the flags byte `target[6]` starts as
0x40 and the limit is stored unshifted; otherwise it starts as 0xC0 and the
limit is replaced by `limit >> 12` when its low 12 bits are 0xFFF, else by
`(limit >> 12) - 1` (for `limit > 65536` the shift is at least 16, so the
`uint32_t` subtraction cannot wrap). -/
def segmentDescriptor (base limit type : Nat) : Descriptor :=
  let p : Nat × Nat :=
    if limit ≤ 65536 then (limit, 0x40)
    else
      (if limit &&& 0xFFF ≠ 0xFFF then limit >>> 12 - 1 else limit >>> 12, 0xC0)
  let lim := p.1
  let t6 := p.2
  { b0 := lim &&& 0xFF
    b1 := (lim >>> 8) &&& 0xFF
    b2 := base &&& 0xFF
    b3 := (base >>> 8) &&& 0xFF
    b4 := (base >>> 16) &&& 0xFF
    b5 := type % 256
    b6 := t6 ||| ((lim >>> 16) &&& 0xF)
    b7 := (base >>> 24) &&& 0xFF }

/-- The granularity flag of a descriptor: bit 7 of the flags byte
`target[6]` (set = 4 KiB granularity). -/
def granularity4K (d : Descriptor) : Bool :=
  Nat.testBit d.b6 7

/-- The 20-bit limit stored in a descriptor: `target[0]`, `target[1]` and
the low nibble of `target[6]`. -/
def storedLimit (d : Descriptor) : Nat :=
  d.b0 + d.b1 * 256 + (d.b6 &&& 0xF) * 65536

/-- Claim C9 as stated is false: `limit = 65536` is greater than 65535, yet
the constructor's test `limit <= 65536` sends it down the byte-granular
branch, so the granularity flag is not set (and the stored limit is 65536,
not `(65536 >> 12) - 1 = 15`). -/
theorem segmentDescriptor_65536_counterexample :
    65535 < 65536
    ∧ granularity4K (segmentDescriptor 0 65536 0x9A) = false
    ∧ storedLimit (segmentDescriptor 0 65536 0x9A) = 65536 := by
  refine ⟨by norm_num, ?_, ?_⟩ <;> decide

theorem reconstruct20 (x : Nat) (hx : x < 2 ^ 20) :
    (x &&& 0xFF) + ((x >>> 8) &&& 0xFF) * 256 + ((x >>> 16) &&& 0xF) * 65536 = x := by
  have h0 : x &&& 0xFF = x % 256 := by
    have h := Nat.and_pow_two_sub_one_eq_mod x 8
    norm_num at h
    exact h
  have h1 : (x >>> 8) &&& 0xFF = x / 256 % 256 := by
    have h := Nat.and_pow_two_sub_one_eq_mod (x >>> 8) 8
    norm_num at h
    rw [h, Nat.shiftRight_eq_div_pow]
  have h2 : (x >>> 16) &&& 0xF = x / 65536 % 16 := by
    have h := Nat.and_pow_two_sub_one_eq_mod (x >>> 16) 4
    norm_num at h
    rw [h, Nat.shiftRight_eq_div_pow]
  rw [h0, h1, h2]
  omega

/-- Claim C9, amended at the boundary: for every `SegmentDescriptor`
constructed with `limit > 65536` (the code's test is `limit <= 65536`, so
65536 itself is stored byte-granular), the granularity flag is 4 KiB and the
stored 20-bit limit is `limit >> 12` when the low 12 bits of `limit` are
0xFFF, and `(limit >> 12) - 1` otherwise. -/
theorem segmentDescriptor_4k_spec (base limit type : Nat)
    (hlo : 65536 < limit) (hhi : limit < 2 ^ 32) :
    granularity4K (segmentDescriptor base limit type) = true
    ∧ storedLimit (segmentDescriptor base limit type)
        = (if limit % 4096 = 4095 then limit / 4096 else limit / 4096 - 1) := by
  have hmask : limit &&& 0xFFF = limit % 4096 := by
    have h := Nat.and_pow_two_sub_one_eq_mod limit 12
    norm_num at h
    exact h
  have hshift : limit >>> 12 = limit / 4096 := by
    rw [Nat.shiftRight_eq_div_pow]
  have hnotle : ¬ limit ≤ 65536 := by omega
  set lim : Nat := if limit &&& 0xFFF ≠ 0xFFF then limit >>> 12 - 1 else limit >>> 12 with hlim
  have hd : segmentDescriptor base limit type =
      { b0 := lim &&& 0xFF, b1 := (lim >>> 8) &&& 0xFF, b2 := base &&& 0xFF
        b3 := (base >>> 8) &&& 0xFF, b4 := (base >>> 16) &&& 0xFF, b5 := type % 256
        b6 := 0xC0 ||| ((lim >>> 16) &&& 0xF), b7 := (base >>> 24) &&& 0xFF } := by
    unfold segmentDescriptor
    rw [if_neg hnotle]
  have hlim20 : lim < 2 ^ 20 := by
    rw [hlim, hmask, hshift]
    have hq : limit / 4096 < 2 ^ 20 := by omega
    split <;> omega
  constructor
  · rw [hd]
    show Nat.testBit (0xC0 ||| ((lim >>> 16) &&& 0xF)) 7 = true
    rw [Nat.testBit_or]
    have h192 : Nat.testBit 0xC0 7 = true := by decide
    rw [h192, Bool.true_or]
  · rw [hd]
    show (lim &&& 0xFF) + ((lim >>> 8) &&& 0xFF) * 256
        + ((0xC0 ||| ((lim >>> 16) &&& 0xF)) &&& 0xF) * 65536 = _
    have hand : (0xC0 ||| ((lim >>> 16) &&& 0xF)) &&& 0xF = (lim >>> 16) &&& 0xF := by
      rw [Nat.and_distrib_right]
      have hc : (0xC0 : Nat) &&& 0xF = 0 := by decide
      rw [hc, Nat.zero_or, Nat.and_assoc]
      have hf : (0xF : Nat) &&& 0xF = 0xF := by decide
      rw [hf]
    rw [hand, reconstruct20 lim hlim20, hlim, hmask, hshift]
    by_cases hm : limit % 4096 = 4095
    · rw [if_neg (by simp [hm]), if_pos hm]
    · rw [if_pos (by simpa using hm), if_neg hm]

/-- Witness for `segmentDescriptor_4k_spec`: the kernel's own data segment,
`SegmentDescriptor(0, 64 MiB, 0x92)`.  Its limit 0x4000000 has low bits 0,
so the stored limit is `(0x4000000 >> 12) - 1 = 0x3FFF`. -/
theorem segmentDescriptor_4k_spec_witness :
    granularity4K (segmentDescriptor 0 (64 * 1024 * 1024) 0x92) = true
    ∧ storedLimit (segmentDescriptor 0 (64 * 1024 * 1024) 0x92)
        = (if 64 * 1024 * 1024 % 4096 = 4095
            then 64 * 1024 * 1024 / 4096 else 64 * 1024 * 1024 / 4096 - 1) :=
  segmentDescriptor_4k_spec 0 (64 * 1024 * 1024) 0x92 (by norm_num) (by norm_num)

end GDT

namespace Interrupts

/-- The static state of `InterruptManager` relevant to activation:
`ActiveInterruptManager` (instances identified by a number, `none` = null)
and the CPU interrupt-enable flag driven by `sti`/`cli`. -/
structure IMState where
  active : Option Nat
  intEnabled : Bool
deriving Repr, DecidableEq

/-- `InterruptManager::Deactivate()` called on instance `this`:
`if(ActiveInterruptManager == this) { ActiveInterruptManager = 0; asm("cli"); }`. -/
def Deactivate (s : IMState) (this : Nat) : IMState :=
  if s.active = some this then { active := none, intEnabled := false } else s

/-- `InterruptManager::Activate()` called on instance `this`:
`if(ActiveInterruptManager != 0) ActiveInterruptManager->Deactivate();
ActiveInterruptManager = this; asm("sti");`. -/
def Activate (s : IMState) (this : Nat) : IMState :=
  let s1 :=
    match s.active with
    | none => s
    | some cur => Deactivate s cur
  { s1 with active := some this, intEnabled := true }

/-- Claim C8 as stated is false: with instance 1 active, `Activate()` on
instance 2 is not refused — the previously active instance is deactivated
and instance 2 becomes the active one. -/
theorem activate_not_refused_counterexample :
    (Activate ⟨some 1, true⟩ 2).active = some 2
    ∧ (Activate ⟨some 1, true⟩ 2).active ≠ some 1 := by
  constructor
  · rfl
  · decide

/-- Claim C8, amended: calling `Activate()` on an instance always makes that
instance the active one — a previously active different instance is
deactivated first, not kept — and the single `ActiveInterruptManager` slot
holds at most one active instance at any time. -/
theorem activate_takes_over (s : IMState) (this : Nat) :
    (Activate s this).active = some this
    ∧ ∀ other, (Activate s this).active = some other → other = this := by
  constructor
  · unfold Activate
    cases s.active <;> rfl
  · intro other h
    unfold Activate at h
    cases hs : s.active <;> rw [hs] at h <;> simpa using h.symm

/-- Witness for `activate_takes_over` at instance 2 with instance 1 active,
instantiating the at-most-one clause at the new active instance. -/
theorem activate_takes_over_witness :
    (Activate ⟨some 1, true⟩ 2).active = some 2 ∧ (2 : Nat) = 2 :=
  ⟨(activate_takes_over ⟨some 1, true⟩ 2).1,
   (activate_takes_over ⟨some 1, true⟩ 2).2 2 (activate_takes_over ⟨some 1, true⟩ 2).1⟩

end Interrupts

namespace Syscalls

/-- The ccall-relevant fields of the `CPUState` frame read by
`SyscallHandler::HandleInterrupt` (src/syscalls.cpp). -/
structure CPUState where
  eax : Nat
  ebx : Nat
deriving Repr, DecidableEq

/-- One observable console effect of interrupt handling. -/
inductive ConsoleOut
  | printfPtr (p : Nat)
  | unhandledDiag (i : Nat)
deriving Repr, DecidableEq

/-- `SyscallHandler::HandleInterrupt(esp)`: reads the call number from
`eax` of the stacked frame; call 4 executes `printf((char*)cpu->ebx)`
(recorded as `printfPtr ebx`, printing the null-terminated string at that
address); any other number hits the empty `default:` branch.  The function
returns `esp` unchanged. -/
def syscallHandleInterrupt (cpu : CPUState) (esp : Nat) : Nat × List ConsoleOut :=
  if cpu.eax = 4 then (esp, [.printfPtr cpu.ebx]) else (esp, [])

/-- `SyscallHandler::SyscallHandler(interruptManager, InterruptNumber)`:
the `InterruptHandler` base constructor stores the handler into
`interruptManager->handlers[InterruptNumber + HardwareInterruptOffset()]`
(the sum is truncated by the base constructor's `uint8_t` parameter).
The model records, per slot, whether this syscall handler occupies it,
starting from an empty table. -/
def syscallHandlerConstruct (offset trapNumber : Nat) : Nat → Bool :=
  fun v => v = (trapNumber + offset) % 256

/-- `InterruptManager::DoHandleInterrupt(interrupt, esp)`: dispatch to the
registered handler if any (here: the syscall handler), otherwise emit the
"UNHANDLED INTERRUPT" diagnostic unless it is the timer vector; then run
the scheduler when `interrupt == hardwareInterruptOffset` (`schedule`
abstracts `taskManager->Schedule`).  The PIC EOI port writes for vectors in
`[offset, offset+16)` do not affect `esp` or the console and are not
modelled. -/
def doHandleInterrupt (handlers : Nat → Bool) (offset : Nat) (schedule : Nat → Nat)
    (interrupt : Nat) (cpu : CPUState) (esp : Nat) : Nat × List ConsoleOut :=
  let r1 :=
    if handlers interrupt then syscallHandleInterrupt cpu esp
    else if interrupt ≠ offset then (esp, [.unhandledDiag interrupt])
    else (esp, [])
  if interrupt = offset then (schedule r1.1, r1.2) else r1

/-- `InterruptManager::HandleInterrupt(interrupt, esp)` (static): delegates
to the active manager, or returns `esp` unchanged when none is active. -/
def handleInterrupt (hasActive : Bool) (handlers : Nat → Bool) (offset : Nat)
    (schedule : Nat → Nat) (interrupt : Nat) (cpu : CPUState) (esp : Nat) :
    Nat × List ConsoleOut :=
  if hasActive then doHandleInterrupt handlers offset schedule interrupt cpu esp
  else (esp, [])

/-- Modelled from the spec: the low-level interrupt stub assembly is not
part of src/ (only `HandleInterruptRequest0x80` is declared in
include/hardwarecommunication/interrupts.h).  Per the spec, a
software-interrupt stub is installed at IDT vector 0x80 and, like the other
request stubs, hands `InterruptManager::HandleInterrupt` its request number
offset by the hardware-interrupt base (0x20, the value the kernel passes),
which is what makes the dispatch land on the handler that
`SyscallHandler` registered at `0x80 + HardwareInterruptOffset()`. -/
def softwareInterrupt0x80 (hasActive : Bool) (handlers : Nat → Bool)
    (schedule : Nat → Nat) (cpu : CPUState) (esp : Nat) : Nat × List ConsoleOut :=
  handleInterrupt hasActive handlers 0x20 schedule (0x80 + 0x20) cpu esp

/-- Claim C7: constructing the `SyscallHandler` for interrupt number 0x80
registers it so that a software interrupt on vector 0x80 dispatches to its
`HandleInterrupt`, which reads the call number from `eax`; call 4 prints
the null-terminated string pointed to by `ebx`, unknown call numbers are
silently ignored, and the stack pointer is returned unchanged. -/
theorem syscall0x80_dispatch (schedule : Nat → Nat) (cpu : CPUState) (esp : Nat) :
    softwareInterrupt0x80 true (syscallHandlerConstruct 0x20 0x80) schedule cpu esp
      = (esp, if cpu.eax = 4 then [.printfPtr cpu.ebx] else []) := by
  unfold softwareInterrupt0x80 handleInterrupt doHandleInterrupt
  have hreg : syscallHandlerConstruct 0x20 0x80 (0x80 + 0x20) = true := by decide
  rw [if_pos rfl, hreg]
  unfold syscallHandleInterrupt
  by_cases h : cpu.eax = 4
  · simp [h]
  · simp [h]

end Syscalls

namespace UDP

/-- `UserDatagramProtocolProvider`'s socket table: the first `numSockets`
entries of the `sockets` array, as the list of the stored (non-null) socket
pointers. -/
def removeSwap (l : List Nat) (i : Nat) : List Nat :=
  (l.set i (l.getD (l.length - 1) 0)).take (l.length - 1)

/-- `UserDatagramProtocolProvider::Disconnect(socket)`:
`for(uint16_t i = 0; i < numSockets && socket == 0; i++)
   if(sockets[i] == socket) { sockets[i] = sockets[--numSockets]; free(socket); break; }`
The loop guard tests `socket == 0` on every iteration, so the body can only
run when the argument is the null pointer.  The result pairs the new table
with whether `MemoryManager::free` was called. -/
def Disconnect (l : List Nat) (socket : Nat) : List Nat × Bool :=
  if socket = 0 then
    match l.findIdx? (fun s => s = socket) with
    | some i => (removeSwap l i, true)
    | none => (l, false)
  else
    (l, false)

/-- Claim C10: for every UDP socket (a non-null pointer),
`UserDatagramProtocolProvider::Disconnect(socket)` leaves the provider's
state entirely unchanged — the socket stays in the table, `numSockets`
keeps its value, and the socket's memory is not freed — so the socket
continues to match incoming datagrams afterwards. -/
theorem disconnect_noop (l : List Nat) (socket : Nat) (h : socket ≠ 0) :
    Disconnect l socket = (l, false) := by
  unfold Disconnect
  rw [if_neg h]

/-- Witness for `disconnect_noop`: disconnecting socket 5 from the table
`[5, 7]` leaves the table `[5, 7]` and frees nothing. -/
theorem disconnect_noop_witness : Disconnect [5, 7] 5 = ([5, 7], false) :=
  disconnect_noop [5, 7] 5 (by decide)

end UDP

namespace TCP

/-- `TransmissionControlProtocolSocketState` of include/net/tcp.h. -/
inductive SocketState
  | CLOSED
  | LISTEN
  | SYN_SENT
  | SYN_RECEIVED
  | ESTABLISHED
  | FIN_WAIT1
  | FIN_WAIT2
  | CLOSING
  | TIME_WAIT
  | CLOSE_WAIT
deriving Repr, DecidableEq

open SocketState

/-- `TransmissionControlProtocolFlag` values of include/net/tcp.h. -/
def FIN : Nat := 1

def SYN : Nat := 2

def RST : Nat := 4

def PSH : Nat := 8

def ACK : Nat := 16

/-- `bigEndian32` of src/net/tcp.cpp. -/
def bigEndian32 (x : Nat) : Nat :=
  ((x &&& 0xFF000000) >>> 24) ||| ((x &&& 0x00FF0000) >>> 8)
    ||| ((x &&& 0x0000FF00) <<< 8) ||| ((x &&& 0x000000FF) <<< 24)

/-- The `TransmissionControlProtocolSocket` fields driven by
`OnInternetProtocolReceived`.  Ports and IPs hold the stored
(network-order) values; sequence numbers are host-order `uint32_t`s.
`hasHandler` models `handler != 0`. -/
structure Socket where
  localPort : Nat
  remotePort : Nat
  localIP : Nat
  remoteIP : Nat
  sequenceNumber : Nat
  acknowledgementNumber : Nat
  state : SocketState
  hasHandler : Bool
deriving Repr, DecidableEq

instance : Inhabited Socket :=
  ⟨⟨0, 0, 0, 0, 0, 0, CLOSED, false⟩⟩

/-- The `TransmissionControlProtocolHeader` fields read by the provider,
holding the raw memory values of the cast segment buffer (so the 16/32-bit
numbers are wire big-endian). -/
structure Header where
  srcPort : Nat
  dstPort : Nat
  sequenceNumber : Nat
  acknowledgementNumber : Nat
  headerSize32 : Nat
  flags : Nat
deriving Repr, DecidableEq

/-- A segment handed to `TransmissionControlProtocolProvider::Send`: the
socket fields it serializes into the TCP header and pseudo-header, the
flags, and the payload size. -/
structure SentSegment where
  srcPort : Nat
  dstPort : Nat
  srcIP : Nat
  dstIP : Nat
  seqWire : Nat
  ackWire : Nat
  flags : Nat
  size : Nat
deriving Repr, DecidableEq

/-- `TransmissionControlProtocolProvider::Send(socket, data, size, flags)`:
fills the header from the socket (`srcPort = localPort`,
`dstPort = remotePort`, byte-swapped sequence/acknowledgement numbers),
sends to `socket->remoteIP` with `phdr->srcIP = socket->localIP`, and
advances `socket->sequenceNumber` by `size`. -/
def sendSeg (s : Socket) (size flags : Nat) : Socket × SentSegment :=
  ({ s with sequenceNumber := (s.sequenceNumber + size) % 2 ^ 32 },
   { srcPort := s.localPort, dstPort := s.remotePort,
     srcIP := s.localIP, dstIP := s.remoteIP,
     seqWire := bigEndian32 s.sequenceNumber,
     ackWire := bigEndian32 s.acknowledgementNumber,
     flags := flags, size := size })

/-- The socket-search loop of `OnInternetProtocolReceived`: the first
socket that is either a LISTEN socket on the destination port and IP with
only SYN (of SYN and ACK) set, or a full four-tuple match. -/
def socketMatches (srcIP dstIP : Nat) (msg : Header) (s : Socket) : Bool :=
  (s.localPort == msg.dstPort && s.localIP == dstIP
      && s.state == LISTEN && (msg.flags &&& (SYN ||| ACK)) == SYN)
  || (s.localPort == msg.dstPort && s.localIP == dstIP
      && s.remotePort == msg.srcPort && s.remoteIP == srcIP)

/-- The payload scan of the delivery branch:
`int x = 0; for(int i = msg->headerSize32*4; i < size; i++)
   if(internetprotocolPayload[i] != 0) x = i;`. -/
def xScan (bytes : List Nat) (start : Nat) : Nat :=
  (List.range' start (bytes.length - start)).foldl
    (fun x i => if bytes.getD i 0 ≠ 0 then i else x) 0

/-- The outcome of the per-socket switch: the mutated socket, the segments
handed to `Send`, the `reset` flag, the payload size handed to the user
handler (when the handler was invoked), and whether a `return false;` was
taken. -/
structure StepResult where
  socket : Socket
  sends : List SentSegment
  reset : Bool
  delivered : Option Nat
  earlyReturn : Bool
deriving Repr, DecidableEq

/-- The delivery branch of `OnInternetProtocolReceived` (the `default:`
arm, also reached by fall-through from `case ACK`): when the byte-swapped
sequence number equals `socket->acknowledgementNumber`, the handler is
invoked on `size - headerSize32*4` bytes (a `uint16_t` parameter, and the
subtraction itself is `uint32_t`, hence the two's-complement reductions);
on acceptance the acknowledgement number is advanced by
`x - headerSize32*4 + 1` (`int` arithmetic added to a `uint32_t`) and an
ACK is sent; on rejection or a sequence mismatch `reset` is raised. -/
def deliverData (s : Socket) (msg : Header) (bytes : List Nat)
    (handlerAccepts : Bool) : StepResult :=
  if bigEndian32 msg.sequenceNumber = s.acknowledgementNumber then
    let delivered :=
      if s.hasHandler then
        some ((((bytes.length : Int) - 4 * msg.headerSize32) % 2 ^ 16).toNat)
      else none
    if s.hasHandler && handlerAccepts then
      let x := xScan bytes (msg.headerSize32 * 4)
      let newAck :=
        (((s.acknowledgementNumber : Int) + x + 1 - 4 * msg.headerSize32) % 2 ^ 32).toNat
      let s1 := { s with acknowledgementNumber := newAck }
      let (s2, seg) := sendSeg s1 0 ACK
      ⟨s2, [seg], false, delivered, false⟩
    else
      ⟨s, [], true, delivered, false⟩
  else
    ⟨s, [], true, none, false⟩

/-- The scrutinee of the flag switch:
`switch((msg->flags) & (SYN | ACK | FIN))`. -/
def switchFlags (msg : Header) : Nat :=
  msg.flags &&& (SYN ||| ACK ||| FIN)

/-- The `switch((msg->flags) & (SYN | ACK | FIN))` of
`OnInternetProtocolReceived`, applied to the matched socket (known to be
non-null and not CLOSED). -/
def processSocket (s : Socket) (msg : Header) (srcIP : Nat) (bytes : List Nat)
    (handlerAccepts : Bool) : StepResult :=
  let sw := switchFlags msg
  if sw = SYN then
    if s.state = LISTEN then
      let s1 := { s with
        state := SYN_RECEIVED
        remotePort := msg.srcPort
        remoteIP := srcIP
        acknowledgementNumber := (bigEndian32 msg.sequenceNumber + 1) % 2 ^ 32
        sequenceNumber := 0xbeefcafe }
      let (s2, seg) := sendSeg s1 0 (SYN ||| ACK)
      let s3 := { s2 with sequenceNumber := (s2.sequenceNumber + 1) % 2 ^ 32 }
      ⟨s3, [seg], false, none, false⟩
    else ⟨s, [], true, none, false⟩
  else if sw = (SYN ||| ACK) then
    if s.state = SYN_SENT then
      let s1 := { s with
        state := ESTABLISHED
        acknowledgementNumber := (bigEndian32 msg.sequenceNumber + 1) % 2 ^ 32
        sequenceNumber := (s.sequenceNumber + 1) % 2 ^ 32 }
      let (s2, seg) := sendSeg s1 0 ACK
      ⟨s2, [seg], false, none, false⟩
    else ⟨s, [], true, none, false⟩
  else if sw = (SYN ||| FIN) ∨ sw = (SYN ||| FIN ||| ACK) then
    ⟨s, [], true, none, false⟩
  else if sw = FIN ∨ sw = (FIN ||| ACK) then
    if s.state = ESTABLISHED then
      let s1 := { s with
        state := CLOSE_WAIT
        acknowledgementNumber := (s.acknowledgementNumber + 1) % 2 ^ 32 }
      let (s2, seg1) := sendSeg s1 0 ACK
      let (s3, seg2) := sendSeg s2 0 (FIN ||| ACK)
      ⟨s3, [seg1, seg2], false, none, false⟩
    else if s.state = CLOSE_WAIT then
      ⟨{ s with state := CLOSED }, [], false, none, false⟩
    else if s.state = FIN_WAIT1 ∨ s.state = FIN_WAIT2 then
      let s1 := { s with
        state := CLOSED
        acknowledgementNumber := (s.acknowledgementNumber + 1) % 2 ^ 32 }
      let (s2, seg) := sendSeg s1 0 ACK
      ⟨s2, [seg], false, none, false⟩
    else ⟨s, [], true, none, false⟩
  else if sw = ACK then
    if s.state = SYN_RECEIVED then
      ⟨{ s with state := ESTABLISHED }, [], false, none, true⟩
    else if s.state = FIN_WAIT1 then
      ⟨{ s with state := FIN_WAIT2 }, [], false, none, true⟩
    else if s.state = CLOSE_WAIT then
      ⟨{ s with state := CLOSED }, [], false, none, false⟩
    else if msg.flags = ACK then
      ⟨s, [], false, none, false⟩
    else
      deliverData s msg bytes handlerAccepts
  else
    deliverData s msg bytes handlerAccepts

/-- The result of `OnInternetProtocolReceived`: the socket table, the
segments handed to `Send`, the payload size handed to a user handler, and
whether the removal loop freed a socket. -/
structure RecvResult where
  sockets : List Socket
  sent : List SentSegment
  delivered : Option Nat
  freedSocket : Bool
deriving Repr, DecidableEq

/-- `TransmissionControlProtocolProvider::OnInternetProtocolReceived`.
Two branches of the C++ code are unreachable and therefore inert here:
(1) the ephemeral-socket RST for unmatched segments (tcp.cpp lines 379-390)
is guarded by `reset`, but `reset` is only ever assigned inside
`if(socket != 0 && ...)`, so an unmatched segment sends nothing; (2) the
removal loop for CLOSED sockets (lines 395-402) repeats `socket == 0` in
its guard while its enclosing test requires `socket != 0`, so no socket is
ever removed or freed (`freedSocket` is always false).  The early
`return false;` statements of `case ACK` leave `reset` false, so the
common tail below is a no-op for them, exactly as in the code. -/
def onInternetProtocolReceived (sockets : List Socket) (srcIP dstIP : Nat)
    (bytes : List Nat) (msg : Header) (handlerAccepts : Bool) : RecvResult :=
  if bytes.length < 20 then ⟨sockets, [], none, false⟩
  else
    match sockets.findIdx? (socketMatches srcIP dstIP msg) with
    | none => ⟨sockets, [], none, false⟩
    | some i =>
      let s := sockets.getD i default
      if msg.flags &&& RST ≠ 0 then
        ⟨sockets.set i { s with state := CLOSED }, [], none, false⟩
      else if s.state = CLOSED then
        ⟨sockets, [], none, false⟩
      else
        let st := processSocket s msg srcIP bytes handlerAccepts
        if st.reset then
          let (s2, seg) := sendSeg st.socket 0 RST
          ⟨sockets.set i s2, st.sends ++ [seg], st.delivered, false⟩
        else
          ⟨sockets.set i st.socket, st.sends, st.delivered, false⟩

theorem sendSeg_ack (s : Socket) (n f : Nat) :
    ((sendSeg s n f).1).acknowledgementNumber = s.acknowledgementNumber := rfl

theorem getD_set_self {α : Type} : ∀ (l : List α) (i : Nat) (a d : α),
    i < l.length → (l.set i a).getD i d = a
  | _ :: _, 0, _, _, _ => rfl
  | _ :: xs, i + 1, a, d, h => getD_set_self xs i a d (Nat.lt_of_succ_lt_succ h)
  | [], i, _, _, h => absurd h (Nat.not_lt_zero i)

theorem foldl_pick_last (P : Nat → Prop) [DecidablePred P] :
    ∀ (l : List Nat) (x0 last : Nat), l.getLast? = some last → P last →
      l.foldl (fun x i => if P i then i else x) x0 = last
  | [], _, _, h, _ => by simp at h
  | [a], x0, last, h, hp => by
    simp only [List.getLast?_singleton, Option.some.injEq] at h
    subst h
    simp only [List.foldl_cons, List.foldl_nil, if_pos hp]
  | a :: b :: m, x0, last, h, hp => by
    have h' : (b :: m).getLast? = some last := by
      rwa [List.getLast?_cons_cons] at h
    simp only [List.foldl_cons]
    exact foldl_pick_last P (b :: m) _ last h' hp

theorem xScan_last (bytes : List Nat) (start : Nat)
    (hs : start < bytes.length)
    (hlast : bytes.getD (bytes.length - 1) 0 ≠ 0) :
    xScan bytes start = bytes.length - 1 := by
  unfold xScan
  have hlenpos : 0 < bytes.length - start := by omega
  have hgl : (List.range' start (bytes.length - start)).getLast?
      = some (bytes.length - 1) := by
    rw [List.getLast?_eq_getElem?, List.length_range', List.getElem?_range']
    · congr 1
      omega
    · omega
  exact foldl_pick_last (fun i => bytes.getD i 0 ≠ 0) _ 0 _ hgl hlast

theorem deliverData_spec (s : Socket) (msg : Header) (bytes : List Nat) (hacc : Bool)
    (h : (deliverData s msg bytes hacc).delivered ≠ none) :
    bigEndian32 msg.sequenceNumber = s.acknowledgementNumber
    ∧ (s.hasHandler = true → hacc = true →
        (deliverData s msg bytes hacc).socket.acknowledgementNumber
          = (((s.acknowledgementNumber : Int) + xScan bytes (msg.headerSize32 * 4) + 1
              - 4 * msg.headerSize32) % 2 ^ 32).toNat) := by
  by_cases hg : bigEndian32 msg.sequenceNumber = s.acknowledgementNumber
  · refine ⟨hg, fun hh ha => ?_⟩
    unfold deliverData
    rw [if_pos hg, hh, ha]
    simp [sendSeg]
  · exfalso
    apply h
    unfold deliverData
    rw [if_neg hg]

set_option maxHeartbeats 800000 in
theorem processSocket_delivered_eq (s : Socket) (msg : Header) (srcIP : Nat)
    (bytes : List Nat) (hacc : Bool)
    (h : (processSocket s msg srcIP bytes hacc).delivered ≠ none) :
    processSocket s msg srcIP bytes hacc = deliverData s msg bytes hacc := by
  simp only [processSocket] at h ⊢
  split_ifs at h ⊢ <;> first | rfl | (simp [sendSeg] at h)

theorem onReceived_delivered_char (sockets : List Socket) (srcIP dstIP : Nat)
    (bytes : List Nat) (msg : Header) (hacc : Bool) (i : Nat)
    (hfind : sockets.findIdx? (socketMatches srcIP dstIP msg) = some i)
    (hdeliv : (onInternetProtocolReceived sockets srcIP dstIP bytes msg hacc).delivered ≠ none) :
    (onInternetProtocolReceived sockets srcIP dstIP bytes msg hacc).delivered
      = (deliverData (sockets.getD i default) msg bytes hacc).delivered
    ∧ ((onInternetProtocolReceived sockets srcIP dstIP bytes msg hacc).sockets.getD i
          default).acknowledgementNumber
      = (deliverData (sockets.getD i default) msg bytes hacc).socket.acknowledgementNumber := by
  have hi : i < sockets.length :=
    (List.findIdx?_eq_some_iff_findIdx_eq.mp hfind).1
  unfold onInternetProtocolReceived at hdeliv ⊢
  by_cases hlen : bytes.length < 20
  · rw [if_pos hlen] at hdeliv
    simp at hdeliv
  · rw [if_neg hlen] at hdeliv ⊢
    simp only [hfind] at hdeliv ⊢
    by_cases hrst : msg.flags &&& RST ≠ 0
    · rw [if_pos hrst] at hdeliv
      simp at hdeliv
    · rw [if_neg hrst] at hdeliv ⊢
      by_cases hcl : (sockets.getD i default).state = SocketState.CLOSED
      · rw [if_pos hcl] at hdeliv
        simp at hdeliv
      · rw [if_neg hcl] at hdeliv ⊢
        by_cases hres : (processSocket (sockets.getD i default) msg srcIP bytes hacc).reset
        · simp only [if_pos hres] at hdeliv ⊢
          have hpd := processSocket_delivered_eq (sockets.getD i default) msg srcIP bytes hacc hdeliv
          rw [hpd, getD_set_self _ _ _ _ (by simpa using hi), sendSeg_ack]
          exact ⟨rfl, rfl⟩
        · simp only [if_neg hres] at hdeliv ⊢
          have hpd := processSocket_delivered_eq (sockets.getD i default) msg srcIP bytes hacc hdeliv
          rw [hpd, getD_set_self _ _ _ _ (by simpa using hi)]
          exact ⟨rfl, rfl⟩

/-- Claim C1: a 20-byte TCP segment (dstPort 80, srcPort 700, PSH|ACK)
arriving when no socket in the provider's table matches it.  The spec
demands exactly one RST with the inverted four-tuple; the code sends
nothing: `reset` is initialized false and only assigned inside
`if(socket != 0 && ...)`, so the ephemeral-socket RST branch of
src/net/tcp.cpp (lines 379-390) is dead code.  Evaluating the model at
this failing input shows the send list is empty. -/
theorem tcp_unmatched_segment_sends_no_rst :
    onInternetProtocolReceived [] 20 10 (List.replicate 20 0)
        ⟨700, 80, 17, 42, 5, PSH ||| ACK⟩ true
      = ⟨[], [], none, false⟩
    ∧ (onInternetProtocolReceived [] 20 10 (List.replicate 20 0)
        ⟨700, 80, 17, 42, 5, PSH ||| ACK⟩ true).sent.length = 0 := by
  constructor <;> rfl

/-- Claim C4: a matched ESTABLISHED socket receives an RST segment and is
left in state CLOSED, but the removal loop of src/net/tcp.cpp (lines
395-402) repeats `socket == 0` in its guard while its enclosing test
requires `socket != 0`, so the CLOSED socket is still in the table
(`numSockets` unchanged: one socket before, one after) and its memory is
never handed to `MemoryManager::free`. -/
theorem tcp_closed_socket_not_removed :
    onInternetProtocolReceived [⟨80, 700, 10, 20, 500, 1000, ESTABLISHED, true⟩]
        20 10 (List.replicate 20 0) ⟨700, 80, 0, 0, 5, RST⟩ true
      = ⟨[⟨80, 700, 10, 20, 500, 1000, CLOSED, true⟩], [], none, false⟩
    ∧ (onInternetProtocolReceived [⟨80, 700, 10, 20, 500, 1000, ESTABLISHED, true⟩]
        20 10 (List.replicate 20 0) ⟨700, 80, 0, 0, 5, RST⟩ true).sockets.length = 1
    ∧ (onInternetProtocolReceived [⟨80, 700, 10, 20, 500, 1000, ESTABLISHED, true⟩]
        20 10 (List.replicate 20 0) ⟨700, 80, 0, 0, 5, RST⟩ true).freedSocket = false := by
  refine ⟨?_, ?_, ?_⟩ <;> decide

/-- Claim C2 as stated is false: an ESTABLISHED socket with
`acknowledgementNumber = 1000` receives an in-sequence 21-byte PSH|ACK
segment whose single payload byte is 0.  The handler accepts the 1-byte
payload, but the zero-scanning advance
`acknowledgementNumber += x - headerSize32*4 + 1` leaves `x = 0` and moves
the acknowledgement number to `1000 - 19 = 981` instead of `1001`. -/
theorem tcp_ack_advance_counterexample :
    (onInternetProtocolReceived [⟨80, 700, 10, 20, 500, 1000, ESTABLISHED, true⟩]
        20 10 (List.replicate 21 0) ⟨700, 80, bigEndian32 1000, 0, 5, PSH ||| ACK⟩
        true).delivered = some 1
    ∧ ((onInternetProtocolReceived [⟨80, 700, 10, 20, 500, 1000, ESTABLISHED, true⟩]
        20 10 (List.replicate 21 0) ⟨700, 80, bigEndian32 1000, 0, 5, PSH ||| ACK⟩
        true).sockets.getD 0 default).acknowledgementNumber = 981
    ∧ (981 : Nat) ≠ (1000 + 1) % 2 ^ 32 := by
  refine ⟨?_, ?_, ?_⟩ <;> decide

/-- Claim C2, amended: whenever `OnInternetProtocolReceived` hands a
segment's payload to the matched socket's user handler, the byte-swapped
sequence number equals the socket's `acknowledgementNumber` at that
moment; after a delivery the handler accepts, the acknowledgement number
has been advanced by `x - 4*headerSize32 + 1` in `uint32_t` two's
complement, where `x` is the largest segment-byte index holding a nonzero
byte (0 when the payload is all zeros) — this equals the delivered payload
length exactly when the segment's final byte is nonzero. -/
theorem tcp_sequence_discipline (sockets : List Socket) (srcIP dstIP : Nat)
    (bytes : List Nat) (msg : Header) (hacc : Bool) (i : Nat)
    (hfind : sockets.findIdx? (socketMatches srcIP dstIP msg) = some i)
    (hdeliv : (onInternetProtocolReceived sockets srcIP dstIP bytes msg hacc).delivered
        ≠ none) :
    bigEndian32 msg.sequenceNumber = (sockets.getD i default).acknowledgementNumber
    ∧ ((sockets.getD i default).hasHandler = true → hacc = true →
        ((onInternetProtocolReceived sockets srcIP dstIP bytes msg hacc).sockets.getD i
            default).acknowledgementNumber
          = ((((sockets.getD i default).acknowledgementNumber : Int)
              + xScan bytes (msg.headerSize32 * 4) + 1 - 4 * msg.headerSize32)
                % 2 ^ 32).toNat)
    ∧ ((sockets.getD i default).hasHandler = true → hacc = true →
        4 * msg.headerSize32 < bytes.length →
        bytes.getD (bytes.length - 1) 0 ≠ 0 →
        ((onInternetProtocolReceived sockets srcIP dstIP bytes msg hacc).sockets.getD i
            default).acknowledgementNumber
          = ((sockets.getD i default).acknowledgementNumber
              + (bytes.length - 4 * msg.headerSize32)) % 2 ^ 32) := by
  obtain ⟨hdel_eq, hack_eq⟩ :=
    onReceived_delivered_char sockets srcIP dstIP bytes msg hacc i hfind hdeliv
  have hdd : (deliverData (sockets.getD i default) msg bytes hacc).delivered ≠ none := by
    rw [← hdel_eq]
    exact hdeliv
  obtain ⟨hseq, hadv⟩ := deliverData_spec (sockets.getD i default) msg bytes hacc hdd
  refine ⟨hseq, fun hh ha => ?_, fun hh ha hlt hlast => ?_⟩
  · rw [hack_eq, hadv hh ha]
  · rw [hack_eq, hadv hh ha]
    have hx : xScan bytes (msg.headerSize32 * 4) = bytes.length - 1 :=
      xScan_last bytes _ (by omega) hlast
    rw [hx]
    omega

/-- Witness for `tcp_sequence_discipline`: an ESTABLISHED socket with
`acknowledgementNumber = 1000` receives an in-sequence 21-byte PSH|ACK
segment with the single (final) payload byte 7; delivery happens and the
acknowledgement number advances by the payload length to 1001. -/
theorem tcp_sequence_discipline_witness :
    bigEndian32 (bigEndian32 1000) = 1000
    ∧ ((onInternetProtocolReceived [⟨80, 700, 10, 20, 500, 1000, ESTABLISHED, true⟩]
        20 10 (List.replicate 20 0 ++ [7]) ⟨700, 80, bigEndian32 1000, 0, 5, PSH ||| ACK⟩
        true).sockets.getD 0 default).acknowledgementNumber = (1000 + 1) % 2 ^ 32 := by
  have h := tcp_sequence_discipline
    [⟨80, 700, 10, 20, 500, 1000, ESTABLISHED, true⟩] 20 10
    (List.replicate 20 0 ++ [7]) ⟨700, 80, bigEndian32 1000, 0, 5, PSH ||| ACK⟩
    true 0 (by decide) (by decide)
  constructor
  · exact h.1
  · have h3 := h.2.2 rfl rfl (by decide) (by decide)
    rw [h3]
    decide

end TCP

end MyOS
